import Mathlib

/-!
Verification development for the bdk wallet core (api.rs, config.rs, db.rs,
error.rs).  Rust code is shallowly embedded: machine integers are `Nat` with
explicit reduction modulo `2 ^ 64` where wrap-around matters, SQLite tables are
association lists or `Option` fields of a `DBState` record, fallible
operations return `Option`, and process-wide mutable state is threaded
explicitly.  Randomness (seed keys, the Poisson draw) is passed in as oracle
arguments.  Components of the repository that are not part of the sources at
hand (wallet.rs, store.rs, p2p_bitcoin.rs) are modelled from the spec where a
claim needs them; every such definition says so in its doc comment.
-/

set_option maxRecDepth 4096

/-- Truncation to 64 bits, the implicit wrap of every Rust `u64` operation. -/
def m64 (x : Nat) : Nat := x % 2 ^ 64

/-- Wrapping 64-bit subtraction, modelling Rust release-mode `u64` `-`. -/
def sub64 (x y : Nat) : Nat := (x + (2 ^ 64 - y % 2 ^ 64)) % 2 ^ 64

/-- Rotate a 64-bit word left by `b` bits. -/
def rotl64 (x b : Nat) : Nat := ((x <<< b) % 2 ^ 64) ||| (x >>> (64 - b))

/-- One SipHash round on the four 64-bit state words. -/
def sipRound : Nat × Nat × Nat × Nat → Nat × Nat × Nat × Nat
  | (v0, v1, v2, v3) =>
    let v0 := m64 (v0 + v1)
    let v1 := rotl64 v1 13
    let v1 := v1 ^^^ v0
    let v0 := rotl64 v0 32
    let v2 := m64 (v2 + v3)
    let v3 := rotl64 v3 16
    let v3 := v3 ^^^ v2
    let v0 := m64 (v0 + v3)
    let v3 := rotl64 v3 21
    let v3 := v3 ^^^ v0
    let v2 := m64 (v2 + v1)
    let v1 := rotl64 v1 17
    let v1 := v1 ^^^ v2
    let v2 := rotl64 v2 32
    (v0, v1, v2, v3)

/-- Absorb one 8-byte message word (SipHash-2-4 compression: two rounds). -/
def sipCompress (st : Nat × Nat × Nat × Nat) (m : Nat) : Nat × Nat × Nat × Nat :=
  let w := sipRound (sipRound (st.1, st.2.1, st.2.2.1, st.2.2.2 ^^^ m))
  (w.1 ^^^ m, w.2.1, w.2.2.1, w.2.2.2)

/-- Little-endian value of a byte list (first byte is least significant). -/
def le64 (bytes : List Nat) : Nat := bytes.foldr (fun b acc => b + 256 * acc) 0

/-- Absorb all full 8-byte blocks of the message; return the state and the
remaining tail of fewer than eight bytes. -/
def sipBlocks : Nat × Nat × Nat × Nat → List Nat → (Nat × Nat × Nat × Nat) × List Nat
  | st, b0 :: b1 :: b2 :: b3 :: b4 :: b5 :: b6 :: b7 :: rest =>
      sipBlocks (sipCompress st (le64 [b0, b1, b2, b3, b4, b5, b6, b7])) rest
  | st, l => (st, l)

/-- SipHash-2-4 of a byte list under keys `(k0, k1)`, as computed by the
`siphasher` crate's `SipHasher::new_with_keys` / `finish`. -/
def sipHash24 (k0 k1 : Nat) (msg : List Nat) : Nat :=
  let st0 := (k0 ^^^ 0x736f6d6570736575, k1 ^^^ 0x646f72616e646f6d,
              k0 ^^^ 0x6c7967656e657261, k1 ^^^ 0x7465646279746573)
  let r := sipBlocks st0 msg
  let fin := le64 r.2 + (msg.length % 256) * 2 ^ 56
  let st := sipCompress r.1 fin
  let w := sipRound (sipRound (sipRound (sipRound
              (st.1, st.2.1, st.2.2.1 ^^^ 0xff, st.2.2.2))))
  w.1 ^^^ w.2.1 ^^^ w.2.2.1 ^^^ w.2.2.2

/-- UTF-8 encoding of one character. -/
def charUtf8 (c : Char) : List Nat :=
  let n := c.toNat
  if n < 0x80 then [n]
  else if n < 0x800 then [0xC0 ||| (n >>> 6), 0x80 ||| (n &&& 0x3F)]
  else if n < 0x10000 then
    [0xE0 ||| (n >>> 12), 0x80 ||| ((n >>> 6) &&& 0x3F), 0x80 ||| (n &&& 0x3F)]
  else
    [0xF0 ||| (n >>> 18), 0x80 ||| ((n >>> 12) &&& 0x3F), 0x80 ||| ((n >>> 6) &&& 0x3F),
     0x80 ||| (n &&& 0x3F)]

/-- UTF-8 bytes of a string, as `str::as_bytes` produces them. -/
def strBytes (s : String) : List Nat := (s.data.map charUtf8).flatten

/-- The `bitcoin::Network` enum of the networks this build knows. -/
inductive Network where
  | bitcoin
  | testnet
  | regtest
deriving DecidableEq, Repr

/-- Display form of a network, used for directory names and serialization. -/
def Network.name : Network → String
  | .bitcoin => "bitcoin"
  | .testnet => "testnet"
  | .regtest => "regtest"

/-- Inverse of `Network.name`, as used when deserializing a config. -/
def Network.ofName (s : String) : Option Network :=
  if s = "bitcoin" then some .bitcoin
  else if s = "testnet" then some .testnet
  else if s = "regtest" then some .regtest
  else none

/-- A `std::net::SocketAddr`: a v4 or v6 IP address together with a port.
Segment and octet values are the machine integers of the Rust type. -/
inductive SocketAddr where
  | v4 (a b c d : Nat) (port : Nat)
  | v6 (s0 s1 s2 s3 s4 s5 s6 s7 : Nat) (port : Nat)
deriving DecidableEq, Repr

/-- The eight 16-bit segments of `NetAddress::new(addr).address`: a v4
address is viewed through `to_ipv6_mapped`, a v6 address directly. -/
def SocketAddr.segments : SocketAddr → List Nat
  | .v4 a b c d _ => [0, 0, 0, 0, 0, 0xffff, a * 256 + b, c * 256 + d]
  | .v6 s0 s1 s2 s3 s4 s5 s6 s7 _ => [s0, s1, s2, s3, s4, s5, s6, s7]

/-- Little-endian byte pairs of the segments, exactly the bytes
`TX::store_address` feeds to the hasher after the network name. -/
def segBytes (segs : List Nat) : List Nat :=
  (segs.map (fun a => [a % 256, (a / 256) % 256])).flatten

/-- Number of peer-address slots per network (`ADDRESS_SLOTS` in db.rs). -/
def ADDRESS_SLOTS : Nat := 10000

/-- The slot an address hashes to: SipHash of the seed keys over the network
name bytes followed by the little-endian ipv6 segments, mod `ADDRESS_SLOTS`. -/
def addrSlot (k0 k1 : Nat) (network : String) (addr : SocketAddr) : Nat :=
  sipHash24 k0 k1 (strBytes network ++ segBytes addr.segments) % ADDRESS_SLOTS

/-- A row of the `address` table (besides its `(network, slot)` key). -/
structure AddrRow where
  ip : SocketAddr
  connected : Nat
  last_seen : Nat
  banned : Nat
deriving DecidableEq, Repr

/-- A row of the `account` table (besides its `(account, sub)` key). -/
structure AccountRow where
  address_type : Nat
  master : String
  instantiated : List Nat
deriving DecidableEq, Repr

/-- A row of the `coins` table.  `proofBlock` is the block hash recorded in
the CBOR-encoded proof blob; `proofBytes` stands for the rest of the blob. -/
structure CoinRow where
  txid : String
  vout : Nat
  value : Nat
  script : List Nat
  account : Nat
  sub : Nat
  kix : Nat
  tweak : Option String
  csv : Option Nat
  proofBlock : String
  proofBytes : List Nat
deriving DecidableEq, Repr

/-- A row of the `txout` table, keyed by `txid`. -/
structure TxoutRow where
  txid : String
  tx : List Nat
  confirmed : Option String
  publisher : Option (List Nat)
  id : Option String
  term : Option Nat
deriving DecidableEq, Repr

/-- The tables of one `bdk.db` store.  The `seed` and `processed` tables hold
at most one row (all writers use `rowid = 1`), so they are `Option` fields;
`address` and `account` are keyed association lists. -/
structure DBState where
  seed : Option (Nat × Nat)
  address : List ((String × Nat) × AddrRow)
  account : List ((Nat × Nat) × AccountRow)
  coins : List CoinRow
  txout : List TxoutRow
  processed : Option String
deriving DecidableEq, Repr

/-- A store with freshly created, empty tables (`TX::create_tables` on a new
database file). -/
def emptyDB : DBState := ⟨none, [], [], [], [], none⟩

/-- Look up the row stored under `(network, slot)` in the `address` table. -/
def lookupAddr : List ((String × Nat) × AddrRow) → String → Nat → Option AddrRow
  | [], _, _ => none
  | p :: rest, network, slot =>
      if p.1 = (network, slot) then some p.2 else lookupAddr rest network slot

/-- SQLite `insert or replace` keyed by `(network, slot)`. -/
def insertAddr (t : List ((String × Nat) × AddrRow)) (network : String) (slot : Nat)
    (r : AddrRow) : List ((String × Nat) × AddrRow) :=
  match t with
  | [] => [((network, slot), r)]
  | p :: rest =>
      if p.1 = (network, slot) then ((network, slot), r) :: rest
      else p :: insertAddr rest network slot r

/-- Read the seed keys, creating them from the random oracle `(r0, r1)` on
first read (`TX::read_seed`). -/
def read_seed (s : DBState) (r0 r1 : Nat) : (Nat × Nat) × DBState :=
  match s.seed with
  | some k => (k, s)
  | none => ((r0, r1), { s with seed := some (r0, r1) })

/-- Five days in seconds (`OLD_CONNECTION` in `TX::store_address`). -/
def OLD_CONNECTION : Nat := 5 * 24 * 60 * 60

/-- `TX::store_address` from db.rs: hash the address to a slot; on a same-IP
collision keep the componentwise maxima, on a different-IP collision replace
only a banned or long-unconnected incumbent, otherwise insert.  Returns the
updated store and the number of rows written. -/
def store_address (s : DBState) (now : Nat) (network : String) (addr : SocketAddr)
    (connected last_seen banned : Nat) (r0 r1 : Nat) : DBState × Nat :=
  let ks := read_seed s r0 r1
  let k0 := ks.1.1
  let k1 := ks.1.2
  let s := ks.2
  let slot := addrSlot k0 k1 network addr
  let fresh : AddrRow := ⟨addr, connected, last_seen, banned⟩
  match lookupAddr s.address network slot with
  | some old =>
      if old.ip ≠ addr then
        if 0 < old.banned ∨ old.connected < sub64 now OLD_CONNECTION then
          ({ s with address := insertAddr s.address network slot fresh }, 1)
        else (s, 0)
      else
        let merged : AddrRow :=
          ⟨addr, max old.connected connected, max old.last_seen last_seen,
           max old.banned banned⟩
        ({ s with address := insertAddr s.address network slot merged }, 1)
  | none =>
      ({ s with address := insertAddr s.address network slot fresh }, 1)

/-- One day in seconds (`BAN_TIME` in `TX::get_an_address`). -/
def BAN_TIME : Nat := 60 * 60 * 24

/-- Insert into a list kept sorted by `last_seen` descending. -/
def insertDesc (x : (String × Nat) × AddrRow) :
    List ((String × Nat) × AddrRow) → List ((String × Nat) × AddrRow)
  | [] => [x]
  | y :: ys =>
      if y.2.last_seen ≤ x.2.last_seen then x :: y :: ys else y :: insertDesc x ys

/-- Sort address rows by `last_seen` descending (the query's `order by`). -/
def sortDesc : List ((String × Nat) × AddrRow) → List ((String × Nat) × AddrRow)
  | [] => []
  | x :: xs => insertDesc x (sortDesc xs)

/-- The eligible peer list of `TX::get_an_address`: rows of the network whose
ban is older than a day, sorted by `last_seen` descending, projected to their
IPs and stripped of the excluded addresses. -/
def eligibleAddrs (s : DBState) (now : Nat) (network : String)
    (other_than : List SocketAddr) : List SocketAddr :=
  ((sortDesc (s.address.filter
      (fun p => decide (p.1.1 = network ∧ p.2.banned < sub64 now BAN_TIME)))).map
    (fun p => p.2.ip)).filter (fun a => !decide (a ∈ other_than))

/-- `TX::get_an_address`: none if no peer is eligible, otherwise the eligible
element at index `min (len - 1) sample`, where `sample` is the drawn
`Poisson(len / 4)` variate (passed in as an oracle). -/
def get_an_address (s : DBState) (now : Nat) (network : String)
    (other_than : List SocketAddr) (sample : Nat) : Option SocketAddr :=
  let eligible := eligibleAddrs s now network other_than
  if h : eligible.length = 0 then none
  else some (eligible.get ⟨min (eligible.length - 1) sample, by omega⟩)

/-- `TX::read_processed`: the single-slot processed-block marker. -/
def read_processed (s : DBState) : Option String := s.processed

/-- `TX::store_processed`: `insert or replace` of the marker row. -/
def store_processed (s : DBState) (block : String) : DBState :=
  { s with processed := some block }

/-- `TX::rescan`: `update processed set block = after` (which touches only
rows that exist), then delete every `txout` and `coins` row. -/
def rescan (s : DBState) (after : String) : DBState :=
  { s with processed := s.processed.map (fun _ => after),
           txout := [], coins := [] }

/-- `TX::store_coins`: truncate and rewrite the `coins` table, then mark each
still-unconfirmed `txout` row as confirmed in the block of its proof when the
new coin set carries a proof for its txid. -/
def store_coins (s : DBState) (rows : List CoinRow) : DBState :=
  { s with coins := rows,
           txout := s.txout.map (fun t =>
             if t.confirmed = none then
               match rows.find? (fun c => c.txid = t.txid) with
               | some c => { t with confirmed := some c.proofBlock }
               | none => t
             else t) }

/-- `TX::store_master`: replace all `account` rows with the master's. -/
def store_master (s : DBState) (accounts : List ((Nat × Nat) × AccountRow)) : DBState :=
  { s with account := accounts }

/-- `db::init`: open (or reuse) the database file, create missing tables,
then store the new wallet's coins and master accounts. -/
def db_init (prev : Option DBState) (coins : List CoinRow)
    (accounts : List ((Nat × Nat) × AccountRow)) : DBState :=
  store_master (store_coins (prev.getD emptyDB) coins) accounts

/-- The `Config` struct of config.rs: the TOML-serialized wallet settings. -/
structure Config where
  encryptedwalletkey : String
  keyroot : String
  lookahead : Nat
  birth : Nat
  network : Network
  bitcoin_peers : List SocketAddr
  bitcoin_connections : Nat
  bitcoin_discovery : Bool
deriving DecidableEq, Repr

/-- `Config::new`: a fresh config with no peers, no connections and
discovery disabled. -/
def Config.new (encryptedwalletkey keyroot : String) (lookahead : Nat) (birth : Nat)
    (network : Network) : Config :=
  ⟨encryptedwalletkey, keyroot, lookahead, birth, network, [], 0, false⟩

/-- `Config::update`: replace the peer settings, keep the wallet fields. -/
def Config.update (c : Config) (bitcoin_peers : List SocketAddr)
    (bitcoin_connections : Nat) (bitcoin_discovery : Bool) : Config :=
  ⟨c.encryptedwalletkey, c.keyroot, c.lookahead, c.birth, c.network,
   bitcoin_peers, bitcoin_connections, bitcoin_discovery⟩

/-- A TOML value as the config serializer produces it.  Strings, integers and
booleans are TOML primitives; `addrArray` is the array of peer addresses,
whose element serialization (`SocketAddr` to its display string and back) is
the standard library's and is kept at value level here. -/
inductive TomlValue where
  | str : String → TomlValue
  | int : Int → TomlValue
  | boolean : Bool → TomlValue
  | addrArray : List SocketAddr → TomlValue
deriving DecidableEq, Repr

/-- A parsed TOML document: the key/value pairs of the config file. -/
def TomlTable := List (String × TomlValue)

/-- Value stored under a key, as the TOML deserializer resolves fields. -/
def tomlLookup (t : TomlTable) (k : String) : Option TomlValue :=
  (List.find? (fun p => p.1 = k) t).map (fun p => p.2)

/-- String content of a TOML value, if it is a string. -/
def TomlValue.asStr : TomlValue → Option String
  | .str s => some s
  | _ => none

/-- Unsigned content of a TOML integer (serde rejects negative values for
the unsigned config fields). -/
def TomlValue.asNat : TomlValue → Option Nat
  | .int (.ofNat n) => some n
  | _ => none

/-- Boolean content of a TOML value, if it is a boolean. -/
def TomlValue.asBool : TomlValue → Option Bool
  | .boolean b => some b
  | _ => none

/-- Peer list content of a TOML value, if it is an address array. -/
def TomlValue.asAddrs : TomlValue → Option (List SocketAddr)
  | .addrArray l => some l
  | _ => none

/-- `toml::to_string` applied to a `Config`: one key per struct field. -/
def Config.toToml (c : Config) : TomlTable :=
  [("encryptedwalletkey", .str c.encryptedwalletkey),
   ("keyroot", .str c.keyroot),
   ("lookahead", .int c.lookahead),
   ("birth", .int c.birth),
   ("network", .str c.network.name),
   ("bitcoin_peers", .addrArray c.bitcoin_peers),
   ("bitcoin_connections", .int c.bitcoin_connections),
   ("bitcoin_discovery", .boolean c.bitcoin_discovery)]

/-- `toml::from_str` for `Config`: each field is looked up by name and must
have the field's type, otherwise deserialization fails. -/
def configFromToml (t : TomlTable) : Option Config :=
  (tomlLookup t "encryptedwalletkey").bind fun v0 => v0.asStr.bind fun ewk =>
  (tomlLookup t "keyroot").bind fun v1 => v1.asStr.bind fun kr =>
  (tomlLookup t "lookahead").bind fun v2 => v2.asNat.bind fun la =>
  (tomlLookup t "birth").bind fun v3 => v3.asNat.bind fun bi =>
  (tomlLookup t "network").bind fun v4 => v4.asStr.bind fun ns =>
  (Network.ofName ns).bind fun nw =>
  (tomlLookup t "bitcoin_peers").bind fun v5 => v5.asAddrs.bind fun ps =>
  (tomlLookup t "bitcoin_connections").bind fun v6 => v6.asNat.bind fun bc =>
  (tomlLookup t "bitcoin_discovery").bind fun v7 => v7.asBool.bind fun bd =>
  some ⟨ewk, kr, la, bi, nw, ps, bc, bd⟩

/-- `config::save`: write the TOML serialization of the config over the
config file (the surrounding directory is created as needed). -/
def config_save (_fs : Option TomlTable) (c : Config) : Option TomlTable :=
  some c.toToml

/-- `config::load`: read and deserialize the config file; an absent file or
a document that does not decode to a `Config` is an error (`none`). -/
def config_load (fs : Option TomlTable) : Option Config :=
  fs.bind configFromToml

/-- `api::update_config`: load the existing config, replace its peer
settings, save, and return the updated config; on a failed load the file is
left alone and an error is returned. -/
def api_update_config (fs : Option TomlTable) (peers : List SocketAddr)
    (connections : Nat) (discovery : Bool) : Option TomlTable × Option Config :=
  match config_load fs with
  | none => (fs, none)
  | some c =>
      let updated := c.update peers connections discovery
      (config_save fs updated, some updated)

/-- `api::remove_config`: load the config, delete the config directory, and
return the loaded config; a failed load leaves the file alone. -/
def api_remove_config (fs : Option TomlTable) : Option TomlTable × Option Config :=
  match config_load fs with
  | none => (fs, none)
  | some c => (none, some c)

/-- Look-ahead window per sub-account.  Modelled from the spec:
`KEY_LOOK_AHEAD` lives in wallet.rs, which is not among the sources; the spec
fixes the default look-ahead `W` at 10. -/
def KEY_LOOK_AHEAD : Nat := 10

/-- Outputs of `Wallet::new`.  Modelled from the spec: wallet.rs is not among
the sources; the spec says `new` yields a mnemonic, a first deposit address
and a wallet carrying the encrypted key, key root, birth timestamp, coins and
master accounts.  The oracle carries those outputs (mnemonic and key material
are produced from entropy, so they are inputs of the model). -/
structure WalletOracle where
  mnemonic : String
  depositAddress : String
  encryptedwalletkey : String
  keyroot : String
  birth : Nat
  coins : List CoinRow
  accounts : List ((Nat × Nat) × AccountRow)

/-- Durable state a single `<work_dir>/<network>` app directory: the config
file and the database file, plus a ghost count of wallets ever created by
`Wallet::new` (it only increases when the code constructs a wallet). -/
structure AppState where
  configFile : Option TomlTable
  database : Option DBState
  walletsCreated : Nat

/-- `api::init_config`: a no-op returning `none` when the config file loads;
otherwise create a wallet, initialise the database with its coins and master,
write a fresh config, and return the mnemonic and first deposit address. -/
def api_init_config (s : AppState) (network : Network) (o : WalletOracle) :
    AppState × Option (String × String) :=
  match config_load s.configFile with
  | some _ => (s, none)
  | none =>
      let cfg := Config.new o.encryptedwalletkey o.keyroot KEY_LOOK_AHEAD o.birth network
      (⟨some cfg.toToml, some (db_init s.database o.coins o.accounts),
        s.walletsCreated + 1⟩,
       some (o.mnemonic, o.depositAddress))

/-- The in-memory `ContentStore`.  Modelled from the spec: store.rs is not
among the sources; the spec's control surface needs only its balance pair,
deposit address and stop flag. -/
structure ContentStore where
  balanceTotal : Nat
  balanceConfirmed : Nat
  depositAddress : String
  stopped : Bool
deriving DecidableEq, Repr

/-- Process-wide state of api.rs: the `CONTENT_STORE` singleton slot and a
ghost count of P2P supervisors ever constructed (`P2PBitcoin::new` calls). -/
structure ProcessState where
  contentStore : Option ContentStore
  supervisors : Nat
deriving DecidableEq, Repr

/-- What the installation phase of `api::start` did: both outcomes return
`Ok(())` to the caller (the second after the run loop ends). -/
inductive StartOutcome where
  | okAlreadyStarted
  | okInstalled
deriving DecidableEq, Repr

/-- The slot-guarded installation phase of `api::start`: when the singleton
slot is already occupied the call returns success immediately without
touching the slot; otherwise it installs the freshly built store and
constructs one P2P supervisor. -/
def api_start (s : ProcessState) (newStore : ContentStore) :
    ProcessState × StartOutcome :=
  match s.contentStore with
  | some _ => (s, .okAlreadyStarted)
  | none =>
      (⟨some newStore, s.supervisors + 1⟩, .okInstalled)

/-- The kinds of error.rs's `Error` enum.  There is no not-started kind; the
seven variants below are all the crate can return in an `Err`. -/
inductive ErrorKind where
  | unsupported
  | lockErr
  | walletErr
  | ioErr
  | dbErr
  | scriptErr
  | tomlDe
deriving DecidableEq, Repr

/-- Outcome of an api.rs entry point: an `Ok` value, an `Err` of error.rs's
`Error` kind, or a thread panic (a Rust `unwrap` failure). -/
inductive ApiOutcome (α : Type) where
  | ok : α → ApiOutcome α
  | err : ErrorKind → ApiOutcome α
  | panicked : ApiOutcome α
deriving DecidableEq, Repr

/-- Whether an outcome is an `Err` returned to the caller. -/
def ApiOutcome.isErr {α : Type} : ApiOutcome α → Bool
  | .err _ => true
  | _ => false

/-- `api::balance`: clone the store out of the singleton slot (panicking on
`unwrap` when the slot is empty) and read the balance vector. -/
def api_balance (s : ProcessState) : ApiOutcome (Nat × Nat) :=
  match s.contentStore with
  | none => .panicked
  | some st => .ok (st.balanceTotal, st.balanceConfirmed)

/-- `api::deposit_addr`: clone the store out of the singleton slot
(panicking on `unwrap` when the slot is empty) and derive a deposit
address. -/
def api_deposit_addr (s : ProcessState) : ApiOutcome String :=
  match s.contentStore with
  | none => .panicked
  | some st => .ok st.depositAddress

/-- A first concrete peer address, used by the concrete instances below. -/
def exAddr1 : SocketAddr := .v4 1 2 3 4 8333

/-- A second, distinct concrete peer address. -/
def exAddr2 : SocketAddr := .v4 5 6 7 8 8333

/-- The slot `exAddr2` hashes to under seed keys `(1, 2)` on network "t". -/
def exSlot : Nat := addrSlot 1 2 "t" exAddr2

/-- An incumbent row for `exSlot` holding the other address, banned. -/
def exOld : AddrRow := ⟨exAddr1, 950000, 7, 3⟩

/-- A store whose "t" address table has `exOld` sitting in `exSlot`. -/
def exDb : DBState := ⟨some (1, 2), [(("t", exSlot), exOld)], [], [], [], none⟩

/-- An incumbent row with large `last_seen` and `banned` values. -/
def exOldBanned : AddrRow := ⟨exAddr1, 999999, 100, 5⟩

/-- A store with the banned incumbent `exOldBanned` in `exSlot`. -/
def exDbBanned : DBState := ⟨some (1, 2), [(("t", exSlot), exOldBanned)], [], [], [], none⟩

/-- The slot `exAddr1` hashes to under seed keys `(1, 2)` on network "t". -/
def exSlot1 : Nat := addrSlot 1 2 "t" exAddr1

/-- An incumbent row holding `exAddr1` itself (a same-IP collision). -/
def exOldSame : AddrRow := ⟨exAddr1, 10, 20, 30⟩

/-- A store with `exOldSame` sitting in `exAddr1`'s own slot. -/
def exDbSame : DBState := ⟨some (1, 2), [(("t", exSlot1), exOldSame)], [], [], [], none⟩

/-- A store with two never-banned peers of network "t". -/
def exDbPeers : DBState :=
  ⟨none, [(("t", 0), ⟨exAddr1, 0, 50, 0⟩), (("t", 1), ⟨exAddr2, 0, 60, 0⟩)],
   [], [], [], none⟩

/-- A concrete confirmed-coin row. -/
def exCoin : CoinRow := ⟨"tx1", 0, 5000, [1, 2], 0, 0, 0, none, none, "blk1", [3]⟩

/-- A concrete unconfirmed `txout` row. -/
def exTxout : TxoutRow := ⟨"tx2", [9], none, none, none, none⟩

/-- A store with every table populated and a processed marker present. -/
def exDbFull : DBState :=
  ⟨some (1, 2), [(("t", exSlot), exOld)], [((0, 0), ⟨0, "m", [1]⟩)],
   [exCoin], [exTxout], some "blk0"⟩

/-- A concrete config as `init_config` would create it. -/
def exConfig : Config := ⟨"ek", "kr", 10, 99, .regtest, [], 0, false⟩

/-- A concrete in-memory content store. -/
def exStore : ContentStore := ⟨100, 50, "bcrt1qexample", false⟩

/-- Concrete outputs of one `Wallet::new` run. -/
def exOracle : WalletOracle :=
  ⟨"abandon ability able", "bcrt1qdeposit", "00ff", "tpub1", 1234,
   [exCoin], [((0, 0), ⟨0, "m", [1]⟩)]⟩

theorem lookupAddr_insertAddr (t : List ((String × Nat) × AddrRow)) (network : String)
    (slot : Nat) (r : AddrRow) :
    lookupAddr (insertAddr t network slot r) network slot = some r := by
  induction t with
  | nil => simp [insertAddr, lookupAddr]
  | cons p rest ih =>
      by_cases h : p.1 = (network, slot)
      · simp [insertAddr, h, lookupAddr]
      · simp [insertAddr, h, lookupAddr, ih]

theorem sub64_of_le (x y : Nat) (hx : x < 2 ^ 64) (hyx : y ≤ x) :
    sub64 x y = x - y := by
  have p : (2 : Nat) ^ 64 = 18446744073709551616 := by norm_num
  have hy : y % 2 ^ 64 = y := Nat.mod_eq_of_lt (lt_of_le_of_lt hyx hx)
  simp only [sub64, hy]
  rw [p] at hx ⊢
  omega

theorem mem_insertDesc (x y : (String × Nat) × AddrRow)
    (l : List ((String × Nat) × AddrRow)) :
    y ∈ insertDesc x l ↔ y = x ∨ y ∈ l := by
  induction l with
  | nil => simp [insertDesc]
  | cons z zs ih =>
      by_cases h : z.2.last_seen ≤ x.2.last_seen
      · simp [insertDesc, h]
      · simp [insertDesc, h, ih]
        tauto

theorem mem_sortDesc (y : (String × Nat) × AddrRow)
    (l : List ((String × Nat) × AddrRow)) :
    y ∈ sortDesc l ↔ y ∈ l := by
  induction l with
  | nil => simp [sortDesc]
  | cons z zs ih => simp [sortDesc, mem_insertDesc, ih]

theorem configFromToml_toToml (c : Config) : configFromToml c.toToml = some c := by
  cases c with
  | mk e k l b n p bc bd => cases n <;> rfl

/-- Claim C1: while the process-wide content-store slot already holds a
store, `start` returns success immediately, leaves the slot's contents in
place, and constructs no second P2P supervisor. -/
theorem api_start_already_started (s : ProcessState) (st newStore : ContentStore)
    (h : s.contentStore = some st) :
    api_start s newStore = (s, .okAlreadyStarted)
    ∧ (api_start s newStore).1.contentStore = some st
    ∧ (api_start s newStore).1.supervisors = s.supervisors := by
  simp [api_start, h]

/-- Witness for C1: a concrete already-started process state is returned
unchanged with the early-success outcome. -/
theorem api_start_already_started_witness :
    api_start ⟨some exStore, 4⟩ ⟨0, 0, "x", false⟩ = (⟨some exStore, 4⟩, .okAlreadyStarted)
    ∧ (api_start ⟨some exStore, 4⟩ ⟨0, 0, "x", false⟩).1.contentStore = some exStore
    ∧ (api_start ⟨some exStore, 4⟩ ⟨0, 0, "x", false⟩).1.supervisors = 4 :=
  api_start_already_started ⟨some exStore, 4⟩ exStore ⟨0, 0, "x", false⟩ rfl

/-- Claim C2: `init_config` is a no-op returning the empty result exactly
when the config file loads; in that case no wallet, database or config state
changes, and otherwise it initialises the database with the new wallet's
coins and master accounts, writes a fresh config, and returns the mnemonic
and first deposit address. -/
theorem api_init_config_noop_iff (s : AppState) (network : Network) (o : WalletOracle) :
    ((api_init_config s network o).2 = none ↔ (config_load s.configFile).isSome = true)
    ∧ ((config_load s.configFile).isSome = true → api_init_config s network o = (s, none))
    ∧ ((config_load s.configFile).isSome = false →
        (api_init_config s network o).2 = some (o.mnemonic, o.depositAddress)
        ∧ (api_init_config s network o).1.configFile =
            some (Config.new o.encryptedwalletkey o.keyroot KEY_LOOK_AHEAD o.birth
              network).toToml
        ∧ (api_init_config s network o).1.database =
            some (db_init s.database o.coins o.accounts)
        ∧ (db_init s.database o.coins o.accounts).coins = o.coins
        ∧ (db_init s.database o.coins o.accounts).account = o.accounts
        ∧ (api_init_config s network o).1.walletsCreated = s.walletsCreated + 1) := by
  cases hc : config_load s.configFile with
  | some c => simp [api_init_config, hc]
  | none => simp [api_init_config, hc, db_init, store_master, store_coins]

/-- Witness for C2: with a loadable config present the call is the identity
returning `none`; on an empty directory it returns the oracle's mnemonic and
deposit address. -/
theorem api_init_config_noop_iff_witness :
    api_init_config ⟨some exConfig.toToml, some emptyDB, 7⟩ .regtest exOracle =
      (⟨some exConfig.toToml, some emptyDB, 7⟩, none)
    ∧ (api_init_config ⟨none, none, 0⟩ .regtest exOracle).2 =
        some (exOracle.mnemonic, exOracle.depositAddress) :=
  ⟨(api_init_config_noop_iff ⟨some exConfig.toToml, some emptyDB, 7⟩ .regtest
      exOracle).2.1 (by decide),
   ((api_init_config_noop_iff ⟨none, none, 0⟩ .regtest exOracle).2.2 (by decide)).1⟩

/-- Counterexample for C3: with the singleton slot empty, `balance` and
`deposit_addr` panic on the `unwrap` of the empty slot — no `Err` of any
error.rs kind is returned to the caller, contradicting the claim that a
not-started error is returned rather than the process aborting. -/
theorem api_balance_not_started_cex :
    api_balance ⟨none, 0⟩ = .panicked ∧ (api_balance ⟨none, 0⟩).isErr = false
    ∧ api_deposit_addr ⟨none, 0⟩ = .panicked
    ∧ (api_deposit_addr ⟨none, 0⟩).isErr = false := by
  decide

/-- Claim C3 as amended: for every call to `balance` or `deposit_addr` made
while the wallet is not started, the operation panics (aborting the calling
thread) and never returns an error value. -/
theorem api_not_started_panics (s : ProcessState) (h : s.contentStore = none) :
    api_balance s = .panicked ∧ (api_balance s).isErr = false
    ∧ api_deposit_addr s = .panicked ∧ (api_deposit_addr s).isErr = false := by
  simp [api_balance, api_deposit_addr, ApiOutcome.isErr, h]

/-- Witness for the amended C3 at a concrete not-started state. -/
theorem api_not_started_panics_witness :
    api_balance ⟨none, 3⟩ = .panicked ∧ (api_balance ⟨none, 3⟩).isErr = false
    ∧ api_deposit_addr ⟨none, 3⟩ = .panicked
    ∧ (api_deposit_addr ⟨none, 3⟩).isErr = false :=
  api_not_started_panics ⟨none, 3⟩ rfl

/-- Counterexample for C7: on a store whose `processed` table is empty, the
`update` statement of `rescan` touches no rows, so the marker does not
become `after` — it stays unset. -/
theorem rescan_no_marker_cex :
    rescan emptyDB "blk9" = emptyDB
    ∧ read_processed (rescan emptyDB "blk9") ≠ some "blk9" := by
  constructor
  · rfl
  · decide

/-- Claim C7 as amended: `rescan after` empties the `coins` and `txout`
tables and leaves `seed`, `address` and `account` unchanged; the processed
marker becomes `after` provided a marker row exists, and stays unset when
none was ever stored. -/
theorem rescan_spec (s : DBState) (after : String) :
    (rescan s after).coins = [] ∧ (rescan s after).txout = []
    ∧ (rescan s after).seed = s.seed ∧ (rescan s after).address = s.address
    ∧ (rescan s after).account = s.account
    ∧ ((read_processed s).isSome = true → read_processed (rescan s after) = some after)
    ∧ (read_processed s = none → read_processed (rescan s after) = none) := by
  refine ⟨rfl, rfl, rfl, rfl, rfl, ?_, ?_⟩ <;>
    cases hp : s.processed <;> simp [rescan, read_processed, hp]

/-- Witness for the amended C7 on a fully populated store with a marker. -/
theorem rescan_spec_witness :
    (rescan exDbFull "blk9").coins = [] ∧ (rescan exDbFull "blk9").txout = []
    ∧ (rescan exDbFull "blk9").seed = exDbFull.seed
    ∧ (rescan exDbFull "blk9").address = exDbFull.address
    ∧ (rescan exDbFull "blk9").account = exDbFull.account
    ∧ read_processed (rescan exDbFull "blk9") = some "blk9" :=
  have h := rescan_spec exDbFull "blk9"
  ⟨h.1, h.2.1, h.2.2.1, h.2.2.2.1, h.2.2.2.2.1, h.2.2.2.2.2.1 (by decide)⟩

/-- Claim C8: saving any config and loading it back returns the config that
was saved, whatever file was there before — including configs with an empty
peer list. -/
theorem config_save_load_roundtrip (fs : Option TomlTable) (c : Config) :
    config_load (config_save fs c) = some c := by
  simp [config_save, config_load, configFromToml_toToml]

/-- Claim C9: after `update_config` on an existing config, the config that
`remove_config` (or a plain load) returns carries the given peers,
connection count and discovery flag, with every wallet field unchanged. -/
theorem update_then_remove_config (fs : Option TomlTable) (c0 : Config)
    (peers : List SocketAddr) (connections : Nat) (discovery : Bool)
    (h : config_load fs = some c0) :
    config_load (api_update_config fs peers connections discovery).1
      = some (c0.update peers connections discovery)
    ∧ (api_remove_config (api_update_config fs peers connections discovery).1).2
      = some (c0.update peers connections discovery)
    ∧ (c0.update peers connections discovery).bitcoin_peers = peers
    ∧ (c0.update peers connections discovery).bitcoin_connections = connections
    ∧ (c0.update peers connections discovery).bitcoin_discovery = discovery
    ∧ (c0.update peers connections discovery).encryptedwalletkey = c0.encryptedwalletkey
    ∧ (c0.update peers connections discovery).keyroot = c0.keyroot
    ∧ (c0.update peers connections discovery).lookahead = c0.lookahead
    ∧ (c0.update peers connections discovery).birth = c0.birth
    ∧ (c0.update peers connections discovery).network = c0.network := by
  have hb : fs.bind configFromToml = some c0 := h
  have hload : config_load (api_update_config fs peers connections discovery).1
      = some (c0.update peers connections discovery) := by
    simp [api_update_config, config_load, hb, config_save, configFromToml_toToml]
  refine ⟨hload, ?_, rfl, rfl, rfl, rfl, rfl, rfl, rfl, rfl⟩
  simp [api_remove_config, hload]

/-- Witness for C9: the spec's scenario with two peers, three connections
and discovery enabled. -/
theorem update_then_remove_config_witness :
    (api_remove_config
        (api_update_config (some exConfig.toToml) [exAddr1, exAddr2] 3 true).1).2
      = some (exConfig.update [exAddr1, exAddr2] 3 true)
    ∧ (exConfig.update [exAddr1, exAddr2] 3 true).bitcoin_peers = [exAddr1, exAddr2]
    ∧ (exConfig.update [exAddr1, exAddr2] 3 true).bitcoin_connections = 3
    ∧ (exConfig.update [exAddr1, exAddr2] 3 true).bitcoin_discovery = true :=
  have h := update_then_remove_config (some exConfig.toToml) exConfig
    [exAddr1, exAddr2] 3 true (by decide)
  ⟨h.2.1, h.2.2.1, h.2.2.2.1, h.2.2.2.2.1⟩

/-- Claim C10: the config a successful `init_config` writes has an empty
peer list, zero connections and discovery disabled. -/
theorem init_config_fresh_defaults (s : AppState) (network : Network) (o : WalletOracle)
    (h : config_load s.configFile = none) :
    ∃ c : Config, (api_init_config s network o).1.configFile = some c.toToml
      ∧ c.bitcoin_peers = [] ∧ c.bitcoin_connections = 0
      ∧ c.bitcoin_discovery = false := by
  refine ⟨Config.new o.encryptedwalletkey o.keyroot KEY_LOOK_AHEAD o.birth network,
    ?_, rfl, rfl, rfl⟩
  simp [api_init_config, h]

/-- Witness for C10: a fresh directory gets a config with the defaults. -/
theorem init_config_fresh_defaults_witness :
    ∃ c : Config,
      (api_init_config ⟨none, some emptyDB, 0⟩ .regtest exOracle).1.configFile
        = some c.toToml
      ∧ c.bitcoin_peers = [] ∧ c.bitcoin_connections = 0
      ∧ c.bitcoin_discovery = false :=
  init_config_fresh_defaults ⟨none, some emptyDB, 0⟩ .regtest exOracle rfl

/-- Claim C4: an insert whose address hashes to a slot occupied by a row
with a different IP replaces the incumbent exactly when the incumbent is
banned or its last-connected time is more than five days old; otherwise the
whole store (the slot's row in particular) is left unchanged. -/
theorem store_address_eviction_policy
    (s : DBState) (now : Nat) (network : String) (addr : SocketAddr)
    (connected last_seen banned r0 r1 k0 k1 : Nat) (old : AddrRow)
    (hseed : s.seed = some (k0, k1))
    (hold : lookupAddr s.address network (addrSlot k0 k1 network addr) = some old)
    (hip : old.ip ≠ addr)
    (hnow : OLD_CONNECTION ≤ now) (hnow64 : now < 2 ^ 64) :
    (lookupAddr (store_address s now network addr connected last_seen banned r0 r1).1.address
        network (addrSlot k0 k1 network addr) = some ⟨addr, connected, last_seen, banned⟩
      ↔ 0 < old.banned ∨ old.connected + OLD_CONNECTION < now)
    ∧ (¬(0 < old.banned ∨ old.connected + OLD_CONNECTION < now) →
        store_address s now network addr connected last_seen banned r0 r1 = (s, 0)) := by
  have hsub : sub64 now OLD_CONNECTION = now - OLD_CONNECTION :=
    sub64_of_le now OLD_CONNECTION hnow64 hnow
  have hcond : (0 < old.banned ∨ old.connected < sub64 now OLD_CONNECTION)
      ↔ (0 < old.banned ∨ old.connected + OLD_CONNECTION < now) := by
    rw [hsub]
    constructor
    · rintro (hb | hc)
      · exact Or.inl hb
      · right; omega
    · rintro (hb | hc)
      · exact Or.inl hb
      · right; omega
  have hrun : store_address s now network addr connected last_seen banned r0 r1 =
      if 0 < old.banned ∨ old.connected < sub64 now OLD_CONNECTION then
        (⟨s.seed, insertAddr s.address network (addrSlot k0 k1 network addr)
            ⟨addr, connected, last_seen, banned⟩,
          s.account, s.coins, s.txout, s.processed⟩, 1)
      else (s, 0) := by
    simp [store_address, read_seed, hseed, hold, hip]
  by_cases h : 0 < old.banned ∨ old.connected + OLD_CONNECTION < now
  · have h' : 0 < old.banned ∨ old.connected < sub64 now OLD_CONNECTION := hcond.mpr h
    rw [if_pos h'] at hrun
    refine ⟨?_, fun hn => absurd h hn⟩
    rw [hrun]
    have hl : lookupAddr (insertAddr s.address network (addrSlot k0 k1 network addr)
        ⟨addr, connected, last_seen, banned⟩) network (addrSlot k0 k1 network addr)
        = some ⟨addr, connected, last_seen, banned⟩ := lookupAddr_insertAddr _ _ _ _
    exact ⟨fun _ => h, fun _ => hl⟩
  · have h' : ¬(0 < old.banned ∨ old.connected < sub64 now OLD_CONNECTION) :=
      fun hx => h (hcond.mp hx)
    rw [if_neg h'] at hrun
    refine ⟨?_, fun _ => hrun⟩
    rw [hrun]
    constructor
    · intro heq
      have heq' : lookupAddr s.address network (addrSlot k0 k1 network addr)
          = some ⟨addr, connected, last_seen, banned⟩ := heq
      rw [hold] at heq'
      have hoe : old = ⟨addr, connected, last_seen, banned⟩ := Option.some.inj heq'
      have hips : old.ip = addr := by rw [hoe]
      exact absurd hips hip
    · intro hx
      exact absurd hx h

/-- Witness for C4 at a concrete store: the incumbent of `exSlot` is banned,
so the insert of the colliding `exAddr2` replaces it. -/
theorem store_address_eviction_policy_witness :
    (lookupAddr (store_address exDb 1000000 "t" exAddr2 11 12 13 0 0).1.address "t"
        (addrSlot 1 2 "t" exAddr2) = some ⟨exAddr2, 11, 12, 13⟩
      ↔ 0 < exOld.banned ∨ exOld.connected + OLD_CONNECTION < 1000000)
    ∧ lookupAddr (store_address exDb 1000000 "t" exAddr2 11 12 13 0 0).1.address "t"
        (addrSlot 1 2 "t" exAddr2) = some ⟨exAddr2, 11, 12, 13⟩ :=
  have h := store_address_eviction_policy exDb 1000000 "t" exAddr2 11 12 13 0 0 1 2 exOld
    rfl (by decide) (by decide) (by decide) (by decide)
  ⟨h.1, h.1.mpr (Or.inl (by decide))⟩

/-- Counterexample for C5: a different-IP insert into `exSlot`, whose
incumbent is banned, replaces the row and in doing so lowers the stored
`last_seen` from 100 to 0 and `banned` from 5 to 0 — the slot's stored
values do decrease on this collision. -/
theorem store_address_collision_monotone_cex :
    lookupAddr exDbBanned.address "t" exSlot = some ⟨exAddr1, 999999, 100, 5⟩
    ∧ lookupAddr (store_address exDbBanned 1000000 "t" exAddr2 0 0 0 0 0).1.address
        "t" exSlot = some ⟨exAddr2, 0, 0, 0⟩ := by
  constructor
  · decide
  · decide

/-- Claim C5 as amended: on a collision where the insert carries the same IP
as the slot's incumbent, the stored row keeps the componentwise maxima, so
`last_seen` and `banned` never decrease (below either the incumbent's or the
insert's values). -/
theorem store_address_same_ip_monotone
    (s : DBState) (now : Nat) (network : String) (addr : SocketAddr)
    (connected last_seen banned r0 r1 k0 k1 : Nat) (old : AddrRow)
    (hseed : s.seed = some (k0, k1))
    (hold : lookupAddr s.address network (addrSlot k0 k1 network addr) = some old)
    (hip : old.ip = addr) :
    lookupAddr (store_address s now network addr connected last_seen banned r0 r1).1.address
        network (addrSlot k0 k1 network addr)
      = some ⟨addr, max old.connected connected, max old.last_seen last_seen,
              max old.banned banned⟩
    ∧ old.last_seen ≤ max old.last_seen last_seen
    ∧ last_seen ≤ max old.last_seen last_seen
    ∧ old.banned ≤ max old.banned banned
    ∧ banned ≤ max old.banned banned := by
  refine ⟨?_, le_max_left _ _, le_max_right _ _, le_max_left _ _, le_max_right _ _⟩
  simp [store_address, read_seed, hseed, hold, hip, lookupAddr_insertAddr]

/-- Witness for the amended C5: a same-IP insert at `exSlot1` keeps the
maxima of the stored and inserted fields. -/
theorem store_address_same_ip_monotone_witness :
    lookupAddr (store_address exDbSame 1000 "t" exAddr1 5 99 2 0 0).1.address "t"
        (addrSlot 1 2 "t" exAddr1)
      = some ⟨exAddr1, max 10 5, max 20 99, max 30 2⟩
    ∧ 20 ≤ max 20 99 ∧ 99 ≤ max 20 99 ∧ 30 ≤ max 30 2 ∧ 2 ≤ max 30 2 :=
  store_address_same_ip_monotone exDbSame 1000 "t" exAddr1 5 99 2 0 0 1 2
    ⟨exAddr1, 10, 20, 30⟩ rfl (by decide) rfl

/-- Claim C6: every address `get_an_address` returns was banned (if ever)
more than a day before `now` and is outside the exclude set; it is the
element of the eligible list (sorted by `last_seen` descending) at index
`min (len - 1) sample`, where `sample` is the drawn Poisson variate; and the
result is `none` exactly when no address is eligible. -/
theorem get_an_address_spec (s : DBState) (now : Nat) (network : String)
    (other_than : List SocketAddr) (sample : Nat)
    (hnow : BAN_TIME ≤ now) (hnow64 : now < 2 ^ 64) :
    (get_an_address s now network other_than sample = none ↔
      eligibleAddrs s now network other_than = [])
    ∧ ∀ a, get_an_address s now network other_than sample = some a →
        a ∉ other_than
        ∧ (∃ key row, (key, row) ∈ s.address ∧ row.ip = a ∧ key.1 = network
            ∧ row.banned + BAN_TIME < now)
        ∧ (eligibleAddrs s now network other_than)[
            min ((eligibleAddrs s now network other_than).length - 1) sample]?
          = some a := by
  have hsub : sub64 now BAN_TIME = now - BAN_TIME := sub64_of_le now BAN_TIME hnow64 hnow
  constructor
  · by_cases hl : (eligibleAddrs s now network other_than).length = 0
    · simp [get_an_address, hl, List.length_eq_zero.mp hl]
    · simp [get_an_address, hl]
      intro hcontra
      exact hl (by rw [hcontra]; rfl)
  · intro a ha
    by_cases hl : (eligibleAddrs s now network other_than).length = 0
    · simp [get_an_address, hl] at ha
    · simp only [get_an_address, dif_neg hl] at ha
      have hget := Option.some.inj ha
      have hlt : min ((eligibleAddrs s now network other_than).length - 1) sample
          < (eligibleAddrs s now network other_than).length := by omega
      have hidx : (eligibleAddrs s now network other_than)[
          min ((eligibleAddrs s now network other_than).length - 1) sample]?
          = some a := by
        rw [List.getElem?_eq_getElem hlt]
        exact congrArg some hget
      have hmem : a ∈ eligibleAddrs s now network other_than := by
        rw [← hget]
        exact List.get_mem _ _ _
      simp only [eligibleAddrs] at hmem
      rw [List.mem_filter] at hmem
      obtain ⟨hmap, hnotin⟩ := hmem
      rw [List.mem_map] at hmap
      obtain ⟨p, hp, hpa⟩ := hmap
      rw [mem_sortDesc, List.mem_filter] at hp
      obtain ⟨hps, hpred⟩ := hp
      have hpred' : p.1.1 = network ∧ p.2.banned < sub64 now BAN_TIME := by
        simpa using hpred
      have hnotin' : a ∉ other_than := by simpa using hnotin
      have hban : p.2.banned + BAN_TIME < now := by
        have hb := hpred'.2
        rw [hsub] at hb
        omega
      exact ⟨hnotin', ⟨p.1, p.2, by simpa using hps, hpa, hpred'.1, hban⟩, hidx⟩

/-- Witness for C6: on a store with two eligible never-banned peers, the draw
`sample = 0` returns the most recently seen one (`exAddr2`). -/
theorem get_an_address_spec_witness :
    exAddr2 ∉ ([] : List SocketAddr)
    ∧ (∃ key row, (key, row) ∈ exDbPeers.address ∧ row.ip = exAddr2 ∧ key.1 = "t"
        ∧ row.banned + BAN_TIME < 100000)
    ∧ (eligibleAddrs exDbPeers 100000 "t" [])[
        min ((eligibleAddrs exDbPeers 100000 "t" []).length - 1) 0]? = some exAddr2 :=
  (get_an_address_spec exDbPeers 100000 "t" [] 0 (by decide) (by decide)).2
    exAddr2 (by decide)
